import Mathlib

/-!
Shallow embedding of the kopeio/aws-controller instances controller
(package instances: InstancesController, Stop, runOnce, configureDNS,
StringSlicesEqual) together with the helpers it uses from package kopeaws
(FindTag, tag-name constants) and the aws SDK value helpers
(aws.StringValue, aws.BoolValue).

Go pointers to strings/bools are modelled as Option; Go maps are modelled
as association lists iterated in list order (a deterministic
sequentialization of Go map iteration); the EC2 and DNS collaborators are
modelled as per-tick oracles describing the outcome of each remote call.
-/

namespace AwsController

/-- aws.StringValue: dereference a *string, nil becomes "". -/
def stringValue (s : Option String) : String := s.getD ""

/-- aws.BoolValue: dereference a *bool, nil becomes false. -/
def boolValue (b : Option Bool) : Bool := b.getD false

/-- ec2.Tag: Key and Value are *string. -/
structure Tag where
  key : Option String
  value : Option String
deriving DecidableEq, Repr

/-- The fields of ec2.Instance that the controller reads.
stateName models i.State.Name (a *string inside the State struct). -/
structure EC2Instance where
  instanceId : Option String
  stateName : Option String
  sourceDestCheck : Option Bool
  tags : List Tag
  privateIpAddress : Option String
  publicIpAddress : Option String
deriving DecidableEq, Repr

/-- kopeaws.TagNameKubernetesDnsPublic -/
def TagNameKubernetesDnsPublic : String := "k8s.io/dns/public"

/-- kopeaws.TagNameKubernetesDnsInternal -/
def TagNameKubernetesDnsInternal : String := "k8s.io/dns/internal"

/-- The loop body of kopeaws.FindTag over instance.Tags. -/
def findTagIn : List Tag → String → String × Bool
  | [], _ => ("", false)
  | t :: rest, name =>
    if stringValue t.key = name then (stringValue t.value, true)
    else findTagIn rest name

/-- kopeaws.FindTag: first tag whose key matches, else ("", false). -/
def FindTag (inst : EC2Instance) (name : String) : String × Bool :=
  findTagIn inst.tags name

/-! ### Lifecycle controller (Stop) -/

/-- The lifecycle fields of InstancesController: the shutdown flag and the
stop channel.  closeCount counts how many times close(c.stopCh) has run,
so that the single-shot property of the shutdown signal is visible. -/
structure LifecycleState where
  shutdown : Bool
  closeCount : Nat
deriving DecidableEq, Repr

/-- The state NewInstancesController starts from. -/
def initLifecycle : LifecycleState := { shutdown := false, closeCount := 0 }

/-- The error message returned by a second Stop. -/
def alreadyStoppingMsg : String := "shutdown already in progress"

/-- InstancesController.Stop, with the mutex-serialized critical section
modelled as one atomic state transition.  Returns the new state and the
returned error (none = nil). -/
def Stop (s : LifecycleState) : LifecycleState × Option String :=
  if !s.shutdown then
    ({ shutdown := true, closeCount := s.closeCount + 1 }, none)
  else
    (s, some alreadyStoppingMsg)

/-- n serialized calls to Stop: final state and the list of results in
call order. -/
def stopN : Nat → LifecycleState → LifecycleState × List (Option String)
  | 0, s => (s, [])
  | n + 1, s =>
    let r := Stop s
    let rest := stopN n r.1
    (rest.1, r.2 :: rest.2)

/-! ### Instance registry and the reconciliation tick (runOnce) -/

/-- type instance (package instances): ID, sequence, status. -/
structure RegInstance where
  ID : String
  sequence : Nat
  status : EC2Instance
deriving DecidableEq, Repr

/-- c.instances: map[string]*instance, modelled as an association list
iterated in list order. -/
abbrev Registry := List (String × RegInstance)

/-- Go map read m[id] (nil when absent). -/
def lookupReg (r : Registry) (id : String) : Option RegInstance :=
  (r.find? (fun e => e.1 == id)).map (fun e => e.2)

/-- Go map write m[id] = v: replace the entry if the key is present,
otherwise add it. -/
def updateReg : Registry → String → RegInstance → Registry
  | [], id, v => [(id, v)]
  | e :: rest, id, v =>
    if e.1 == id then (id, v) :: rest else e :: updateReg rest id v

/-- The non-fatal errors handed to runtime.HandleError during a tick. -/
inductive CtrlError where
  | malformedRecord (inst : EC2Instance)
  | unknownState (id : String) (state : String)
  | policyError (id : String)
deriving DecidableEq, Repr

/-- The errors runOnce can return to its caller. -/
inductive TickError where
  | inventoryError
  | dnsApplyError
deriving DecidableEq, Repr

/-- One iteration of runOnce's first loop: skip an instance with an empty
id (recording a malformed-record error), otherwise upsert it with the
current sequence number. -/
def upsertOne (seq : Nat) (r : Registry) (aws : EC2Instance) :
    Registry × List CtrlError :=
  let id := stringValue aws.instanceId
  if id = "" then (r, [CtrlError.malformedRecord aws])
  else (updateReg r id { ID := id, sequence := seq, status := aws }, [])

/-- runOnce's first loop over the fetched instances. -/
def upsertAll (seq : Nat) (r : Registry) : List EC2Instance →
    Registry × List CtrlError
  | [] => (r, [])
  | a :: rest =>
    let u := upsertOne seq r a
    let tail := upsertAll seq u.1 rest
    (tail.1, u.2 ++ tail.2)

/-- The switch on aws.StringValue(i.status.State.Name) in runOnce:
returns (canSetSourceDestCheck, hit the default unknown-state branch). -/
def canSetSourceDestCheckOf (s : String) : Bool × Bool :=
  if s = "pending" then (false, false)
  else if s = "running" then (true, false)
  else if s = "shutting-down" then (false, false)
  else if s = "terminated" then (false, false)
  else if s = "stopping" then (true, false)
  else if s = "stopped" then (true, false)
  else (false, true)

/-- The per-instance body of runOnce's second loop, after the eviction
check: the state switch and the SourceDestCheck correction.  cfgOk is the
oracle for whether cloud.ConfigureInstanceSourceDestCheck succeeds.
Returns the updated instance, the mutation calls issued (id, value), and
the non-fatal errors recorded. -/
def applyPolicy (desired : Option Bool) (cfgOk : String → Bool → Bool)
    (i : RegInstance) :
    RegInstance × List (String × Bool) × List CtrlError :=
  let stateName := stringValue i.status.stateName
  let c := canSetSourceDestCheckOf stateName
  let errs0 := if c.2 then [CtrlError.unknownState i.ID stateName] else []
  match desired with
  | none => (i, [], errs0)
  | some d =>
    if c.1 && (d != boolValue i.status.sourceDestCheck) then
      if cfgOk i.ID d then
        ({ i with status := { i.status with sourceDestCheck := some d } },
          [(i.ID, d)], errs0)
      else
        (i, [(i.ID, d)], errs0 ++ [CtrlError.policyError i.ID])
    else (i, [], errs0)

/-- runOnce's second loop over the registry: evict entries whose sequence
is not the current one, apply the policy to the rest.  Returns the new
registry, the mutation calls, and the non-fatal errors, in list order. -/
def processAll (desired : Option Bool) (cfgOk : String → Bool → Bool)
    (seq : Nat) : Registry → Registry × List (String × Bool) × List CtrlError
  | [] => ([], [], [])
  | e :: rest =>
    let tail := processAll desired cfgOk seq rest
    if e.2.sequence != seq then tail
    else
      let p := applyPolicy desired cfgOk e.2
      ((e.1, p.1) :: tail.1, p.2.1 ++ tail.2.1, p.2.2 ++ tail.2.2)

/-! ### DNS state and configureDNS -/

/-- map[string][]string, modelled as an association list iterated in list
order. -/
abbrev DNSMap := List (String × List String)

/-- Go map read m[k] (nil slice when absent). -/
def dnsLookup (m : DNSMap) (k : String) : Option (List String) :=
  (m.find? (fun e => e.1 == k)).map (fun e => e.2)

/-- dnsState[name] = append(dnsState[name], ip). -/
def dnsAppend : DNSMap → String → String → DNSMap
  | [], k, ip => [(k, [ip])]
  | e :: rest, k, ip =>
    if e.1 == k then (e.1, e.2 ++ [ip]) :: rest else e :: dnsAppend rest k ip

/-- The first loop of configureDNS over one instance: contribute the
private address under the internal-DNS tag and the public address under
the public-DNS tag, when tag and address are both non-empty. -/
def deriveDNSStep (m : DNSMap) (i : RegInstance) : DNSMap :=
  let internalName := (FindTag i.status TagNameKubernetesDnsInternal).1
  let m1 :=
    if internalName ≠ "" then
      let internalIP := stringValue i.status.privateIpAddress
      if internalIP ≠ "" then dnsAppend m internalName internalIP else m
    else m
  let publicName := (FindTag i.status TagNameKubernetesDnsPublic).1
  if publicName ≠ "" then
    let publicIP := stringValue i.status.publicIpAddress
    if publicIP ≠ "" then dnsAppend m1 publicName publicIP else m1
  else m1

/-- The desired DNS snapshot derived from the registry (configureDNS's
first loop). -/
def deriveDNS (insts : Registry) : DNSMap :=
  insts.foldl (fun m e => deriveDNSStep m e.2) []

/-- StringSlicesEqual from the source. -/
def StringSlicesEqual (l r : List String) : Bool :=
  if l.length != r.length then false
  else (List.zip l r).all (fun p => p.1 == p.2)

/-- Lexicographic less-or-equal on char lists, the order sort.Strings
sorts by, written so that it evaluates by kernel reduction. -/
def charListLe : List Char → List Char → Bool
  | [], _ => true
  | _ :: _, [] => false
  | a :: as, b :: bs =>
    if a < b then true
    else if b < a then false
    else charListLe as bs

/-- Lexicographic less-or-equal on strings. -/
def strLe (a b : String) : Bool := charListLe a.data b.data

/-- sort.Strings: sort a string slice in increasing lexicographic
order. -/
def sortStrings (l : List String) : List String :=
  List.insertionSort (fun a b => strLe a b = true) l

/-- The diff loop sorts every value of the derived snapshot in place. -/
def sortedDNS (m : DNSMap) : DNSMap :=
  m.map (fun e => (e.1, sortStrings e.2))

/-- The change set computed by configureDNS's diff loop against a non-nil
baseline: the sorted derived entries whose value differs from the
baseline's value for that name (missing baseline key = nil slice). -/
def dnsChanges (base m : DNSMap) : DNSMap :=
  (sortedDNS m).filter
    (fun e => !(StringSlicesEqual ((dnsLookup base e.1).getD []) e.2))

/-- InstancesController.configureDNS.  baseline models c.dnsState (none =
nil map); applyOk is the oracle for whether dns.ApplyDNSChanges succeeds.
Returns the new baseline, the argument of the ApplyDNSChanges call when
one is made, and the returned error. -/
def configureDNS (applyOk : Bool) (baseline : Option DNSMap)
    (insts : Registry) : Option DNSMap × Option DNSMap × Option TickError :=
  let dnsState := deriveDNS insts
  match baseline with
  | none =>
    if dnsState.isEmpty then (some dnsState, none, none)
    else if applyOk then (some dnsState, some dnsState, none)
    else (none, some dnsState, some TickError.dnsApplyError)
  | some base =>
    let changes := dnsChanges base dnsState
    if changes.isEmpty then (some base, none, none)
    else if applyOk then (some (sortedDNS dnsState), some changes, none)
    else (some base, some changes, some TickError.dnsApplyError)

/-! ### The controller state and runOnce -/

/-- The reconciliation fields of InstancesController.  dnsConfigured
models c.dns != nil; dnsState is none when the dns-state map is nil. -/
structure ControllerState where
  SourceDestCheck : Option Bool
  instances : Registry
  sequence : Nat
  dnsConfigured : Bool
  dnsState : Option DNSMap
deriving DecidableEq, Repr

/-- The per-tick behaviour of the external collaborators: the inventory
fetch result, the outcome of each attribute mutation, and the outcome of
the DNS apply. -/
structure TickEnv where
  fetch : Except Unit (List EC2Instance)
  configureOk : String → Bool → Bool
  dnsApplyOk : Bool

/-- The observable calls and non-fatal errors of one tick. -/
structure TickLog where
  mutationCalls : List (String × Bool)
  nonFatal : List CtrlError
  dnsApplied : List DNSMap
deriving DecidableEq, Repr

/-- InstancesController.runOnce: fetch, upsert, evict + policy, DNS.
Returns the controller state after the tick, the tick's log, and the
error returned to the caller (none = nil). -/
def runOnce (env : TickEnv) (c : ControllerState) :
    ControllerState × TickLog × Option TickError :=
  match env.fetch with
  | Except.error _ =>
    (c, { mutationCalls := [], nonFatal := [], dnsApplied := [] },
      some TickError.inventoryError)
  | Except.ok fetched =>
    let seq := c.sequence + 1
    let u := upsertAll seq c.instances fetched
    let p := processAll c.SourceDestCheck env.configureOk seq u.1
    let c1 := { c with sequence := seq, instances := p.1 }
    if c.dnsConfigured then
      let d := configureDNS env.dnsApplyOk c1.dnsState p.1
      ({ c1 with dnsState := d.1 },
        { mutationCalls := p.2.1, nonFatal := u.2 ++ p.2.2,
          dnsApplied := d.2.1.toList },
        d.2.2)
    else
      (c1,
        { mutationCalls := p.2.1, nonFatal := u.2 ++ p.2.2,
          dnsApplied := [] },
        none)

/-! ### Concrete sample values used by the witness theorems -/

/-- A well-formed running instance with an internal DNS tag. -/
def sampleAwsInstance : EC2Instance :=
  { instanceId := some "i-1", stateName := some "running",
    sourceDestCheck := some false,
    tags := [{ key := some TagNameKubernetesDnsInternal,
               value := some "foo.example.com" }],
    privateIpAddress := some "10.0.0.5", publicIpAddress := none }

/-- An inventory record lacking an instance id. -/
def sampleMalformedInstance : EC2Instance :=
  { instanceId := none, stateName := some "running",
    sourceDestCheck := some false, tags := [],
    privateIpAddress := none, publicIpAddress := none }

/-- A tick environment whose remote calls all succeed. -/
def sampleEnv : TickEnv :=
  { fetch := Except.ok [sampleAwsInstance],
    configureOk := fun _ _ => true, dnsApplyOk := true }

/-- A tick environment whose inventory fetch fails. -/
def errEnv : TickEnv :=
  { fetch := Except.error (), configureOk := fun _ _ => true,
    dnsApplyOk := true }

/-- A tick environment fetching one malformed record. -/
def malformedEnv : TickEnv :=
  { fetch := Except.ok [sampleMalformedInstance],
    configureOk := fun _ _ => true, dnsApplyOk := true }

/-- A freshly constructed controller (empty registry, empty non-nil DNS
baseline) with a desired source-dest-check of true. -/
def sampleState : ControllerState :=
  { SourceDestCheck := some true, instances := [], sequence := 0,
    dnsConfigured := true, dnsState := some [] }

/-- A registry entry for sampleAwsInstance at sequence 5. -/
def sampleRegInstance : RegInstance :=
  { ID := "i-1", sequence := 5, status := sampleAwsInstance }

/-- A registry entry whose observed source-dest-check is absent (nil). -/
def sampleNilSdcInstance : RegInstance :=
  { ID := "i-2", sequence := 5,
    status := { instanceId := some "i-2", stateName := some "running",
                sourceDestCheck := none, tags := [],
                privateIpAddress := none, publicIpAddress := none } }

/-- A second instance contributing another address to the same internal
DNS name as sampleAwsInstance. -/
def sampleAwsInstance2 : EC2Instance :=
  { instanceId := some "i-2", stateName := some "running",
    sourceDestCheck := some true,
    tags := [{ key := some TagNameKubernetesDnsInternal,
               value := some "foo.example.com" }],
    privateIpAddress := some "10.0.0.9", publicIpAddress := none }

/-- A registry whose derived DNS snapshot lists the two addresses of
foo.example.com in non-sorted order. -/
def sampleRegistry2 : Registry :=
  [("i-2", { ID := "i-2", sequence := 1, status := sampleAwsInstance2 }),
   ("i-1", { ID := "i-1", sequence := 1, status := sampleAwsInstance })]

/-- A baseline holding the two addresses of foo.example.com, sorted. -/
def sampleBaseline : DNSMap :=
  [("foo.example.com", ["10.0.0.5", "10.0.0.9"])]

/-- Two desired DNS snapshots describe the same underlying tag/address
data when they bind the same names and, name by name, carry the same
addresses up to order (Go map iteration order is arbitrary). -/
def DNSEquiv (m1 m2 : DNSMap) : Prop :=
  (∀ k, dnsLookup m1 k = none ↔ dnsLookup m2 k = none) ∧
  (∀ k v1 v2, dnsLookup m1 k = some v1 → dnsLookup m2 k = some v2 →
    v1.Perm v2)

/-! ## Theorems -/

/-! ### Order facts about the string comparison used by sort.Strings -/

theorem string_data_inj {s t : String} (h : s.data = t.data) : s = t := by
  cases s; cases t; simp_all

theorem charListLe_cons (a b : Char) (as bs : List Char) :
    charListLe (a :: as) (b :: bs) = true ↔
      (a < b ∨ (a = b ∧ charListLe as bs = true)) := by
  rcases lt_trichotomy a b with h | h | h
  · simp [charListLe, h]
  · subst h
    simp [charListLe, lt_irrefl]
  · have h1 : ¬ a < b := asymm h
    have h2 : a ≠ b := ne_of_gt h
    simp [charListLe, h1, h, h2]

theorem charListLe_total : ∀ x y, charListLe x y = true ∨ charListLe y x = true
  | [], _ => Or.inl rfl
  | _ :: _, [] => Or.inr rfl
  | a :: as, b :: bs => by
    rcases lt_trichotomy a b with h | h | h
    · left; rw [charListLe_cons]; exact Or.inl h
    · subst h
      rcases charListLe_total as bs with h | h
      · left; rw [charListLe_cons]; exact Or.inr ⟨rfl, h⟩
      · right; rw [charListLe_cons]; exact Or.inr ⟨rfl, h⟩
    · right; rw [charListLe_cons]; exact Or.inl h

theorem charListLe_trans :
    ∀ x y z, charListLe x y = true → charListLe y z = true →
      charListLe x z = true
  | [], _, _, _, _ => rfl
  | _ :: _, [], _, hxy, _ => by simp [charListLe] at hxy
  | _ :: _, _ :: _, [], _, hyz => by simp [charListLe] at hyz
  | a :: as, b :: bs, c :: cs, hxy, hyz => by
    rw [charListLe_cons] at hxy hyz ⊢
    rcases hxy with h1 | ⟨rfl, h1⟩
    · rcases hyz with h2 | ⟨rfl, h2⟩
      · exact Or.inl (lt_trans h1 h2)
      · exact Or.inl h1
    · rcases hyz with h2 | ⟨rfl, h2⟩
      · exact Or.inl h2
      · exact Or.inr ⟨rfl, charListLe_trans as bs cs h1 h2⟩

theorem charListLe_antisymm :
    ∀ x y, charListLe x y = true → charListLe y x = true → x = y
  | [], [], _, _ => rfl
  | [], _ :: _, _, h => by simp [charListLe] at h
  | _ :: _, [], h, _ => by simp [charListLe] at h
  | a :: as, b :: bs, h1, h2 => by
    rw [charListLe_cons] at h1 h2
    rcases h1 with h1 | ⟨rfl, h1⟩
    · rcases h2 with h2 | ⟨e, h2⟩
      · exact absurd h2 (asymm h1)
      · rw [e] at h1; exact absurd h1 (lt_irrefl _)
    · rcases h2 with h2 | ⟨e, h2⟩
      · exact absurd h2 (lt_irrefl _)
      · rw [charListLe_antisymm as bs h1 h2]

instance : IsTotal String (fun a b => strLe a b = true) :=
  ⟨fun a b => charListLe_total a.data b.data⟩

instance : IsTrans String (fun a b => strLe a b = true) :=
  ⟨fun a b c => charListLe_trans a.data b.data c.data⟩

instance : IsAntisymm String (fun a b => strLe a b = true) :=
  ⟨fun a b h1 h2 => string_data_inj (charListLe_antisymm a.data b.data h1 h2)⟩

theorem sortStrings_perm (l : List String) : (sortStrings l).Perm l :=
  List.perm_insertionSort _ l

theorem sortStrings_sorted (l : List String) :
    List.Sorted (fun a b => strLe a b = true) (sortStrings l) :=
  List.sorted_insertionSort _ l

theorem sortStrings_eq_of_perm {l1 l2 : List String} (h : l1.Perm l2) :
    sortStrings l1 = sortStrings l2 :=
  List.eq_of_perm_of_sorted
    ((sortStrings_perm l1).trans (h.trans (sortStrings_perm l2).symm))
    (sortStrings_sorted l1) (sortStrings_sorted l2)

theorem sortStrings_eq_self_of_sorted {l : List String}
    (h : List.Sorted (fun a b => strLe a b = true) l) : sortStrings l = l :=
  List.eq_of_perm_of_sorted (sortStrings_perm l) (sortStrings_sorted l) h

/-! ### Lifecycle: Stop -/

theorem stop_of_stopped (c : Nat) :
    Stop { shutdown := true, closeCount := c } =
      ({ shutdown := true, closeCount := c }, some alreadyStoppingMsg) := rfl

theorem stopN_of_stopped (n c : Nat) :
    stopN n { shutdown := true, closeCount := c } =
      ({ shutdown := true, closeCount := c },
        List.replicate n (some alreadyStoppingMsg)) := by
  induction n with
  | zero => rfl
  | succ n ih =>
    simp [stopN, stop_of_stopped, ih, List.replicate]

/-- Claim C2: for every sequence of N ≥ 1 calls to Stop from the initial
state, exactly the first call succeeds returning nil and closes the
shutdown channel; every later call returns the already-in-progress error
and changes no state; the channel is closed exactly once. -/
theorem c2_stop_exactly_once (n : Nat) :
    stopN (n + 1) initLifecycle =
      ({ shutdown := true, closeCount := 1 },
        none :: List.replicate n (some alreadyStoppingMsg)) := by
  simp [stopN, Stop, initLifecycle, stopN_of_stopped]

/-! ### Registry lemmas -/

theorem lookupReg_updateReg_self (r : Registry) (id : String) (v : RegInstance) :
    lookupReg (updateReg r id v) id = some v := by
  induction r with
  | nil => simp [updateReg, lookupReg, List.find?]
  | cons e rest ih =>
    by_cases h : e.1 = id
    · simp [updateReg, h, lookupReg, List.find?]
    · have hb : (e.1 == id) = false := beq_eq_false_iff_ne.mpr h
      simp only [updateReg, hb, if_false]
      simpa [lookupReg, List.find?, hb] using ih

theorem lookupReg_updateReg_other (r : Registry) (id k : String)
    (v : RegInstance) (h : k ≠ id) :
    lookupReg (updateReg r id v) k = lookupReg r k := by
  have hik : (id == k) = false := beq_eq_false_iff_ne.mpr (Ne.symm h)
  induction r with
  | nil => simp [updateReg, lookupReg, List.find?, hik]
  | cons e rest ih =>
    by_cases he : e.1 = id
    · have hek : (e.1 == k) = false := beq_eq_false_iff_ne.mpr (he ▸ Ne.symm h)
      simp [updateReg, he, lookupReg, List.find?, hik, hek]
    · have hb : (e.1 == id) = false := beq_eq_false_iff_ne.mpr he
      simp only [updateReg, hb, if_false]
      by_cases hek : e.1 = k
      · simp [lookupReg, List.find?, hek]
      · have hbk : (e.1 == k) = false := beq_eq_false_iff_ne.mpr hek
        simpa [lookupReg, List.find?, hbk] using ih

theorem mem_updateReg {e : String × RegInstance} {r : Registry}
    {id : String} {v : RegInstance} (h : e ∈ updateReg r id v) :
    e ∈ r ∨ e = (id, v) := by
  induction r with
  | nil => simpa [updateReg] using h
  | cons f rest ih =>
    by_cases hf : f.1 = id
    · simp only [updateReg, hf, beq_self_eq_true, if_true] at h
      rcases List.mem_cons.mp h with h | h
      · exact Or.inr h
      · exact Or.inl (List.mem_cons_of_mem _ h)
    · have hb : (f.1 == id) = false := beq_eq_false_iff_ne.mpr hf
      simp only [updateReg, hb, if_false] at h
      rcases List.mem_cons.mp h with h | h
      · exact Or.inl (List.mem_cons.mpr (Or.inl h))
      · rcases ih h with h | h
        · exact Or.inl (List.mem_cons_of_mem _ h)
        · exact Or.inr h

theorem lookupReg_mem {r : Registry} {id : String} {v : RegInstance}
    (h : lookupReg r id = some v) : (id, v) ∈ r := by
  simp only [lookupReg, Option.map_eq_some'] at h
  rcases h with ⟨e, he, hv⟩
  have hmem := List.mem_of_find?_eq_some he
  have hp := List.find?_some he
  have : e.1 = id := by simpa using hp
  have : e = (id, v) := by
    cases e; simp_all
  exact this ▸ hmem

/-- Provenance of registry entries after the upsert loop: every entry was
already in the registry, or records a fetched instance with non-empty id,
stamped with the current sequence number. -/
theorem mem_upsertAll :
    ∀ (l : List EC2Instance) (r : Registry) (seq : Nat)
      (e : String × RegInstance), e ∈ (upsertAll seq r l).1 →
      e ∈ r ∨ (e.1 ≠ "" ∧ ∃ a ∈ l, stringValue a.instanceId = e.1 ∧
        e.2 = { ID := e.1, sequence := seq, status := a })
  | [], _, _, _, h => Or.inl h
  | a :: rest, r, seq, e, h => by
    have h' := mem_upsertAll rest (upsertOne seq r a).1 seq e h
    rcases h' with h' | ⟨hne, a', ha', hsid, hval⟩
    · by_cases hid : stringValue a.instanceId = ""
      · simp only [upsertOne, hid, if_pos rfl] at h'
        exact Or.inl h'
      · simp only [upsertOne, if_neg hid] at h'
        rcases mem_updateReg h' with h' | h'
        · exact Or.inl h'
        · refine Or.inr ?_
          subst h'
          exact ⟨hid, a, List.mem_cons_self a rest, rfl, rfl⟩
    · exact Or.inr ⟨hne, a', List.mem_cons_of_mem _ ha', hsid, hval⟩

/-- The upsert loop preserves the presence of an entry stamped with the
current sequence number. -/
theorem upsertAll_preserves_stamped :
    ∀ (l : List EC2Instance) (r : Registry) (seq : Nat) (id : String),
      (∃ v, lookupReg r id = some v ∧ v.sequence = seq) →
      ∃ v, lookupReg (upsertAll seq r l).1 id = some v ∧ v.sequence = seq
  | [], _, _, _, h => h
  | a :: rest, r, seq, id, h => by
    refine upsertAll_preserves_stamped rest (upsertOne seq r a).1 seq id ?_
    by_cases hid : stringValue a.instanceId = ""
    · simpa [upsertOne, hid] using h
    · simp only [upsertOne, if_neg hid]
      by_cases hsame : stringValue a.instanceId = id
      · rw [hsame]
        exact ⟨_, lookupReg_updateReg_self r id _, rfl⟩
      · rw [lookupReg_updateReg_other r _ id _ (fun hh => hsame hh.symm)]
        exact h

/-- Every fetched instance with a non-empty id is present after the upsert
loop, stamped with the current sequence number. -/
theorem upsertAll_mem_of_fetched :
    ∀ (l : List EC2Instance) (r : Registry) (seq : Nat) (id : String),
      id ≠ "" → (∃ a ∈ l, stringValue a.instanceId = id) →
      ∃ v, lookupReg (upsertAll seq r l).1 id = some v ∧ v.sequence = seq
  | [], _, _, _, _, h => by simp at h
  | a :: rest, r, seq, id, hne, h => by
    rcases h with ⟨a', ha', hsid⟩
    rcases List.mem_cons.mp ha' with rfl | ha'
    · refine upsertAll_preserves_stamped rest (upsertOne seq r a').1 seq id ?_
      have hid : stringValue a'.instanceId ≠ "" := hsid ▸ hne
      simp only [upsertOne, if_neg hid]
      rw [hsid]
      exact ⟨_, lookupReg_updateReg_self r id _, rfl⟩
    · exact upsertAll_mem_of_fetched rest (upsertOne seq r a).1 seq id hne
        ⟨a', ha', hsid⟩

/-- Every malformed fetched record is reported by the upsert loop. -/
theorem upsertAll_malformed :
    ∀ (l : List EC2Instance) (r : Registry) (seq : Nat) (a : EC2Instance),
      a ∈ l → stringValue a.instanceId = "" →
      CtrlError.malformedRecord a ∈ (upsertAll seq r l).2
  | [], _, _, _, h, _ => by simp at h
  | b :: rest, r, seq, a, h, hid => by
    rcases List.mem_cons.mp h with rfl | h
    · simp [upsertAll, upsertOne, hid]
    · simp only [upsertAll, List.mem_append]
      exact Or.inr (upsertAll_malformed rest (upsertOne seq r b).1 seq a h hid)

/-- applyPolicy never changes the ID or the sequence of an entry. -/
theorem applyPolicy_preserves_id_seq (d : Option Bool)
    (cfg : String → Bool → Bool) (i : RegInstance) :
    (applyPolicy d cfg i).1.ID = i.ID ∧
      (applyPolicy d cfg i).1.sequence = i.sequence := by
  unfold applyPolicy
  cases d with
  | none => exact ⟨rfl, rfl⟩
  | some b =>
    dsimp only
    split
    · split
      · exact ⟨rfl, rfl⟩
      · exact ⟨rfl, rfl⟩
    · exact ⟨rfl, rfl⟩

/-- Provenance of registry entries after the eviction/policy loop. -/
theorem mem_processAll (d : Option Bool) (cfg : String → Bool → Bool)
    (seq : Nat) :
    ∀ (r : Registry) (e : String × RegInstance),
      e ∈ (processAll d cfg seq r).1 →
      ∃ f ∈ r, f.2.sequence = seq ∧ e.1 = f.1 ∧ e.2 = (applyPolicy d cfg f.2).1
  | [], _, h => by simp [processAll] at h
  | f :: rest, e, h => by
    by_cases hs : f.2.sequence = seq
    · have hb : (f.2.sequence != seq) = false := by simp [hs]
      simp only [processAll, hb, if_false] at h
      rcases List.mem_cons.mp h with rfl | h
      · exact ⟨f, List.mem_cons_self f rest, hs, rfl, rfl⟩
      · rcases mem_processAll d cfg seq rest e h with ⟨g, hg, hgs, h1, h2⟩
        exact ⟨g, List.mem_cons_of_mem _ hg, hgs, h1, h2⟩
    · have hb : (f.2.sequence != seq) = true := by simp [hs]
      simp only [processAll, hb, if_true] at h
      rcases mem_processAll d cfg seq rest e h with ⟨g, hg, hgs, h1, h2⟩
      exact ⟨g, List.mem_cons_of_mem _ hg, hgs, h1, h2⟩

/-- Entries stamped with the current sequence number survive the
eviction/policy loop. -/
theorem processAll_keeps_stamped (d : Option Bool)
    (cfg : String → Bool → Bool) (seq : Nat) :
    ∀ (r : Registry) (e : String × RegInstance), e ∈ r →
      e.2.sequence = seq →
      (e.1, (applyPolicy d cfg e.2).1) ∈ (processAll d cfg seq r).1
  | [], _, h, _ => by simp at h
  | f :: rest, e, h, hs => by
    rcases List.mem_cons.mp h with rfl | h
    · have hb : (e.2.sequence != seq) = false := by simp [hs]
      simp only [processAll, hb, if_false]
      exact List.mem_cons_self _ _
    · by_cases hfs : f.2.sequence = seq
      · have hb : (f.2.sequence != seq) = false := by simp [hfs]
        simp only [processAll, hb, if_false]
        exact List.mem_cons_of_mem _
          (processAll_keeps_stamped d cfg seq rest e h hs)
      · have hb : (f.2.sequence != seq) = true := by simp [hfs]
        simp only [processAll, hb, if_true]
        exact processAll_keeps_stamped d cfg seq rest e h hs

/-- The error configureDNS returns is nil or a DNS apply error. -/
theorem configureDNS_error (applyOk : Bool) (baseline : Option DNSMap)
    (insts : Registry) :
    (configureDNS applyOk baseline insts).2.2 = none ∨
      (configureDNS applyOk baseline insts).2.2 = some TickError.dnsApplyError := by
  unfold configureDNS
  cases baseline <;> dsimp only <;> split
  · exact Or.inl rfl
  · split
    · exact Or.inl rfl
    · exact Or.inr rfl
  · exact Or.inl rfl
  · split
    · exact Or.inl rfl
    · exact Or.inr rfl

/-- When the fetch succeeds, membership in the post-tick registry is
exactly: a non-empty identifier present in the fetch; and each retained
entry carries the fetched status after the policy pass. -/
theorem runOnce_registry_membership (env : TickEnv) (c : ControllerState)
    (l : List EC2Instance) (hf : env.fetch = Except.ok l)
    (hinv : ∀ e ∈ c.instances, e.2.sequence ≤ c.sequence) (id : String) :
    (∃ v, (id, v) ∈ (runOnce env c).1.instances) ↔
      (id ≠ "" ∧ ∃ a ∈ l, stringValue a.instanceId = id) := by
  have hreg : (runOnce env c).1.instances =
      (processAll c.SourceDestCheck env.configureOk (c.sequence + 1)
        (upsertAll (c.sequence + 1) c.instances l).1).1 := by
    unfold runOnce
    rw [hf]
    dsimp only
    split <;> rfl
  rw [hreg]
  constructor
  · rintro ⟨v, hv⟩
    rcases mem_processAll _ _ _ _ _ hv with ⟨f, hf1, hfs, hid, _⟩
    rcases mem_upsertAll l c.instances (c.sequence + 1) f hf1 with hold | hnew
    · have := hinv f hold
      omega
    · have hid' : id = f.1 := hid
      rcases hnew with ⟨hne, a, ha, hsid, _⟩
      refine ⟨?_, a, ha, ?_⟩
      · rw [hid']; exact hne
      · rw [hid']; exact hsid
  · rintro ⟨hne, ha⟩
    rcases upsertAll_mem_of_fetched l c.instances (c.sequence + 1) id hne ha
      with ⟨v, hv, hvs⟩
    exact ⟨_, processAll_keeps_stamped _ _ _ _ _ (lookupReg_mem hv) hvs⟩

/-- Claim C1: after a tick whose inventory fetch succeeds, the registry holds
exactly the non-empty identifiers of that fetch, and every retained entry
is stamped with the new tick counter (stale entries were evicted within
the tick). -/
theorem c1_registry_reflects_fetch (env : TickEnv) (c : ControllerState)
    (l : List EC2Instance) (hf : env.fetch = Except.ok l)
    (hinv : ∀ e ∈ c.instances, e.2.sequence ≤ c.sequence) :
    (∀ id, (∃ v, (id, v) ∈ (runOnce env c).1.instances) ↔
      (id ≠ "" ∧ ∃ a ∈ l, stringValue a.instanceId = id)) ∧
    (∀ e ∈ (runOnce env c).1.instances, e.2.sequence = c.sequence + 1) ∧
    (runOnce env c).1.sequence = c.sequence + 1 := by
  have hreg : (runOnce env c).1.instances =
      (processAll c.SourceDestCheck env.configureOk (c.sequence + 1)
        (upsertAll (c.sequence + 1) c.instances l).1).1 := by
    unfold runOnce
    rw [hf]
    dsimp only
    split <;> rfl
  have hseq : (runOnce env c).1.sequence = c.sequence + 1 := by
    unfold runOnce
    rw [hf]
    dsimp only
    split <;> rfl
  refine ⟨fun id => runOnce_registry_membership env c l hf hinv id, ?_, hseq⟩
  intro e he
  rw [hreg] at he
  rcases mem_processAll _ _ _ _ _ he with ⟨f, _, hfs, _, h2⟩
  rw [h2, (applyPolicy_preserves_id_seq _ _ _).2, hfs]

/-! ### Source-dest-check policy lemmas -/

theorem canSet_fst_iff (s : String) :
    (canSetSourceDestCheckOf s).1 = true ↔
      (s = "running" ∨ s = "stopping" ∨ s = "stopped") := by
  unfold canSetSourceDestCheckOf
  split_ifs <;> simp_all

theorem canSet_snd_iff (s : String) :
    (canSetSourceDestCheckOf s).2 = true ↔
      (s ≠ "pending" ∧ s ≠ "running" ∧ s ≠ "shutting-down" ∧
        s ≠ "terminated" ∧ s ≠ "stopping" ∧ s ≠ "stopped") := by
  unfold canSetSourceDestCheckOf
  split_ifs <;> simp_all

theorem applyPolicy_none_eq (cfg : String → Bool → Bool) (i : RegInstance) :
    applyPolicy none cfg i =
      (i, [],
        if (canSetSourceDestCheckOf (stringValue i.status.stateName)).2 then
          [CtrlError.unknownState i.ID (stringValue i.status.stateName)]
        else []) := rfl

theorem applyPolicy_some_eq (d : Bool) (cfg : String → Bool → Bool)
    (i : RegInstance) :
    applyPolicy (some d) cfg i =
      (if (canSetSourceDestCheckOf (stringValue i.status.stateName)).1 &&
            (d != boolValue i.status.sourceDestCheck) then
        (if cfg i.ID d then
          ({ i with status := { i.status with sourceDestCheck := some d } },
            [(i.ID, d)],
            if (canSetSourceDestCheckOf (stringValue i.status.stateName)).2 then
              [CtrlError.unknownState i.ID (stringValue i.status.stateName)]
            else [])
        else
          (i, [(i.ID, d)],
            (if (canSetSourceDestCheckOf (stringValue i.status.stateName)).2 then
              [CtrlError.unknownState i.ID (stringValue i.status.stateName)]
            else []) ++ [CtrlError.policyError i.ID]))
      else
        (i, [],
          if (canSetSourceDestCheckOf (stringValue i.status.stateName)).2 then
            [CtrlError.unknownState i.ID (stringValue i.status.stateName)]
          else [])) := rfl

theorem applyPolicy_calls_iff (desired : Option Bool)
    (cfg : String → Bool → Bool) (i : RegInstance) :
    (applyPolicy desired cfg i).2.1 ≠ [] ↔
      ((stringValue i.status.stateName = "running" ∨
        stringValue i.status.stateName = "stopping" ∨
        stringValue i.status.stateName = "stopped") ∧
        ∃ d, desired = some d ∧ d ≠ boolValue i.status.sourceDestCheck) := by
  cases desired with
  | none =>
    rw [applyPolicy_none_eq]
    simp
  | some d =>
    rw [applyPolicy_some_eq, ← canSet_fst_iff]
    by_cases h : ((canSetSourceDestCheckOf (stringValue i.status.stateName)).1 &&
        (d != boolValue i.status.sourceDestCheck)) = true
    · rw [if_pos h]
      rw [Bool.and_eq_true] at h
      rcases h with ⟨h1, h2⟩
      split_ifs <;> simp [h1, bne_iff_ne.mp h2]
    · rw [if_neg h]
      simp only [Bool.and_eq_true, bne_iff_ne, not_and] at h
      constructor
      · intro hx
        exact absurd rfl hx
      · rintro ⟨h1, d', hd, hne⟩
        cases hd
        exact absurd hne (by simpa using h h1)

theorem applyPolicy_calls_singleton (d : Bool) (cfg : String → Bool → Bool)
    (i : RegInstance) (h : (applyPolicy (some d) cfg i).2.1 ≠ []) :
    (applyPolicy (some d) cfg i).2.1 = [(i.ID, d)] := by
  rw [applyPolicy_some_eq] at h ⊢
  split_ifs at h ⊢ with h1 h2 <;> first | rfl | exact absurd rfl h

theorem applyPolicy_skip_states (desired : Option Bool)
    (cfg : String → Bool → Bool) (i : RegInstance)
    (h : stringValue i.status.stateName = "pending" ∨
      stringValue i.status.stateName = "shutting-down" ∨
      stringValue i.status.stateName = "terminated") :
    (applyPolicy desired cfg i).2.1 = [] ∧ (applyPolicy desired cfg i).2.2 = [] := by
  have h1 : (canSetSourceDestCheckOf (stringValue i.status.stateName)).1 = false := by
    rcases h with h | h | h <;> rw [h] <;> rfl
  have h2 : (canSetSourceDestCheckOf (stringValue i.status.stateName)).2 = false := by
    rcases h with h | h | h <;> rw [h] <;> rfl
  cases desired with
  | none => rw [applyPolicy_none_eq]; simp [h2]
  | some d => rw [applyPolicy_some_eq]; simp [h1, h2]

theorem applyPolicy_unknown_state (desired : Option Bool)
    (cfg : String → Bool → Bool) (i : RegInstance)
    (h : stringValue i.status.stateName ∉
      (["pending", "running", "shutting-down", "terminated",
        "stopping", "stopped"] : List String)) :
    (applyPolicy desired cfg i).2.1 = [] ∧
      CtrlError.unknownState i.ID (stringValue i.status.stateName) ∈
        (applyPolicy desired cfg i).2.2 := by
  simp only [List.mem_cons, List.mem_singleton, not_or] at h
  obtain ⟨h1, h2, h3, h4, h5, h6⟩ := h
  have hu : (canSetSourceDestCheckOf (stringValue i.status.stateName)).2 = true :=
    (canSet_snd_iff _).mpr ⟨h1, h2, h3, h4, h5, by simpa using h6⟩
  have hc : (canSetSourceDestCheckOf (stringValue i.status.stateName)).1 = false := by
    rcases Bool.eq_false_or_eq_true (canSetSourceDestCheckOf
      (stringValue i.status.stateName)).1 with h | h
    · rcases (canSet_fst_iff _).mp h with hx | hx | hx
      · exact absurd hx h2
      · exact absurd hx h5
      · exact absurd hx (by simpa using h6)
    · exact h
  cases desired with
  | none => rw [applyPolicy_none_eq]; simp [hu]
  | some d => rw [applyPolicy_some_eq]; simp [hc, hu]

/-- Claim C4: a mutation request is issued iff the state is running,
stopping, or stopped, a desired value is configured, and it differs from
the observed value; when issued it is a single request; pending,
shutting-down and terminated instances are skipped without mutation or
error; any other state yields an unknown-state error and no mutation. -/
theorem c4_policy_eligibility (desired : Option Bool)
    (cfg : String → Bool → Bool) (i : RegInstance) :
    ((applyPolicy desired cfg i).2.1 ≠ [] ↔
      ((stringValue i.status.stateName = "running" ∨
        stringValue i.status.stateName = "stopping" ∨
        stringValue i.status.stateName = "stopped") ∧
        ∃ d, desired = some d ∧ d ≠ boolValue i.status.sourceDestCheck)) ∧
    (∀ d, desired = some d → (applyPolicy desired cfg i).2.1 ≠ [] →
      (applyPolicy desired cfg i).2.1 = [(i.ID, d)]) ∧
    ((stringValue i.status.stateName = "pending" ∨
      stringValue i.status.stateName = "shutting-down" ∨
      stringValue i.status.stateName = "terminated") →
      (applyPolicy desired cfg i).2.1 = [] ∧
        (applyPolicy desired cfg i).2.2 = []) ∧
    ((stringValue i.status.stateName ∉
      (["pending", "running", "shutting-down", "terminated",
        "stopping", "stopped"] : List String)) →
      (applyPolicy desired cfg i).2.1 = [] ∧
        CtrlError.unknownState i.ID (stringValue i.status.stateName) ∈
          (applyPolicy desired cfg i).2.2) :=
  ⟨applyPolicy_calls_iff desired cfg i,
    fun d hd => hd ▸ applyPolicy_calls_singleton d cfg i,
    applyPolicy_skip_states desired cfg i,
    applyPolicy_unknown_state desired cfg i⟩

/-- Witness for C4 at a concrete running instance with desired true and
observed false: the mutation fires as a single call. -/
theorem c4_policy_eligibility_witness :
    ((applyPolicy (some true) (fun _ _ => true) sampleRegInstance).2.1 ≠ [] ↔
      ((stringValue sampleRegInstance.status.stateName = "running" ∨
        stringValue sampleRegInstance.status.stateName = "stopping" ∨
        stringValue sampleRegInstance.status.stateName = "stopped") ∧
        ∃ d, (some true : Option Bool) = some d ∧
          d ≠ boolValue sampleRegInstance.status.sourceDestCheck)) ∧
    (∀ d, (some true : Option Bool) = some d →
      (applyPolicy (some true) (fun _ _ => true) sampleRegInstance).2.1 ≠ [] →
      (applyPolicy (some true) (fun _ _ => true) sampleRegInstance).2.1 =
        [(sampleRegInstance.ID, d)]) ∧
    ((stringValue sampleRegInstance.status.stateName = "pending" ∨
      stringValue sampleRegInstance.status.stateName = "shutting-down" ∨
      stringValue sampleRegInstance.status.stateName = "terminated") →
      (applyPolicy (some true) (fun _ _ => true) sampleRegInstance).2.1 = [] ∧
        (applyPolicy (some true) (fun _ _ => true) sampleRegInstance).2.2 = []) ∧
    ((stringValue sampleRegInstance.status.stateName ∉
      (["pending", "running", "shutting-down", "terminated",
        "stopping", "stopped"] : List String)) →
      (applyPolicy (some true) (fun _ _ => true) sampleRegInstance).2.1 = [] ∧
        CtrlError.unknownState sampleRegInstance.ID
            (stringValue sampleRegInstance.status.stateName) ∈
          (applyPolicy (some true) (fun _ _ => true) sampleRegInstance).2.2) :=
  c4_policy_eligibility (some true) (fun _ _ => true) sampleRegInstance

theorem applyPolicy_success (d : Bool) (cfg : String → Bool → Bool)
    (i : RegInstance) (hne : (applyPolicy (some d) cfg i).2.1 ≠ [])
    (hcfg : cfg i.ID d = true) :
    (applyPolicy (some d) cfg i).1.status.sourceDestCheck = some d := by
  rw [applyPolicy_some_eq] at hne ⊢
  by_cases h1 : ((canSetSourceDestCheckOf (stringValue i.status.stateName)).1 &&
      (d != boolValue i.status.sourceDestCheck)) = true
  · rw [if_pos h1, if_pos hcfg]
  · rw [if_neg h1] at hne
    exact absurd rfl hne

theorem applyPolicy_failure (d : Bool) (cfg : String → Bool → Bool)
    (i : RegInstance) (hcfg : cfg i.ID d = false) :
    (applyPolicy (some d) cfg i).1 = i ∧
      ((applyPolicy (some d) cfg i).2.1 ≠ [] →
        CtrlError.policyError i.ID ∈ (applyPolicy (some d) cfg i).2.2) := by
  rw [applyPolicy_some_eq]
  by_cases h1 : ((canSetSourceDestCheckOf (stringValue i.status.stateName)).1 &&
      (d != boolValue i.status.sourceDestCheck)) = true
  · rw [if_pos h1, if_neg (by simp [hcfg] : ¬ cfg i.ID d = true)]
    exact ⟨rfl, fun _ => by simp⟩
  · rw [if_neg h1]
    exact ⟨rfl, fun h => absurd rfl h⟩

theorem applyPolicy_matched (d : Bool) (cfg : String → Bool → Bool)
    (i : RegInstance) (hobs : boolValue i.status.sourceDestCheck = d) :
    (applyPolicy (some d) cfg i).2.1 = [] := by
  rw [applyPolicy_some_eq]
  have hb : (d != boolValue i.status.sourceDestCheck) = false := by
    simp [hobs]
  simp [hb]

theorem processAll_calls_nil (d : Option Bool) (cfg : String → Bool → Bool)
    (seq : Nat) :
    ∀ r : Registry,
      (∀ e ∈ r, e.2.sequence = seq → (applyPolicy d cfg e.2).2.1 = []) →
      (processAll d cfg seq r).2.1 = []
  | [], _ => rfl
  | f :: rest, h => by
    by_cases hfs : f.2.sequence = seq
    · have hb : (f.2.sequence != seq) = false := by simp [hfs]
      simp only [processAll, hb, if_false]
      rw [h f (List.mem_cons_self f rest) hfs,
        processAll_calls_nil d cfg seq rest
          (fun e he hs => h e (List.mem_cons_of_mem _ he) hs)]
      rfl
    · have hb : (f.2.sequence != seq) = true := by simp [hfs]
      simp only [processAll, hb, if_true]
      exact processAll_calls_nil d cfg seq rest
        (fun e he hs => h e (List.mem_cons_of_mem _ he) hs)

/-- When the fetch succeeds, the tick log's pieces and the returned error
come from the two loops and the DNS engine. -/
theorem runOnce_ok_proj (env : TickEnv) (c : ControllerState)
    (l : List EC2Instance) (hf : env.fetch = Except.ok l) :
    (runOnce env c).2.1.mutationCalls =
      (processAll c.SourceDestCheck env.configureOk (c.sequence + 1)
        (upsertAll (c.sequence + 1) c.instances l).1).2.1 ∧
    (runOnce env c).2.1.nonFatal =
      (upsertAll (c.sequence + 1) c.instances l).2 ++
        (processAll c.SourceDestCheck env.configureOk (c.sequence + 1)
          (upsertAll (c.sequence + 1) c.instances l).1).2.2 ∧
    ((runOnce env c).2.2 = none ∨
      (runOnce env c).2.2 = some TickError.dnsApplyError) := by
  unfold runOnce
  rw [hf]
  dsimp only
  split
  · exact ⟨rfl, rfl, configureDNS_error _ _ _⟩
  · exact ⟨rfl, rfl, Or.inl rfl⟩

/-- Claim C5: a successful mutation updates the in-memory observed value in
the same tick; a failed one leaves it unchanged and records a policy
error; an instance whose observed value already matches the desired value
triggers no call; and a tick whose fetch reports the desired value
everywhere issues zero mutation calls. -/
theorem c5_optimistic_convergence (d : Bool) (cfg : String → Bool → Bool)
    (i : RegInstance) :
    ((applyPolicy (some d) cfg i).2.1 ≠ [] → cfg i.ID d = true →
      (applyPolicy (some d) cfg i).1.status.sourceDestCheck = some d) ∧
    (cfg i.ID d = false → (applyPolicy (some d) cfg i).1 = i ∧
      ((applyPolicy (some d) cfg i).2.1 ≠ [] →
        CtrlError.policyError i.ID ∈ (applyPolicy (some d) cfg i).2.2)) ∧
    (boolValue i.status.sourceDestCheck = d →
      (applyPolicy (some d) cfg i).2.1 = []) ∧
    (∀ (env : TickEnv) (c : ControllerState) (l : List EC2Instance),
      env.fetch = Except.ok l →
      (∀ e ∈ c.instances, e.2.sequence ≤ c.sequence) →
      c.SourceDestCheck = some d →
      (∀ a ∈ l, boolValue a.sourceDestCheck = d) →
      (runOnce env c).2.1.mutationCalls = []) := by
  refine ⟨fun hne hcfg => applyPolicy_success d cfg i hne hcfg,
    fun hcfg => applyPolicy_failure d cfg i hcfg,
    fun hobs => applyPolicy_matched d cfg i hobs,
    fun env c l hf hinv hdes hall => ?_⟩
  rw [(runOnce_ok_proj env c l hf).1]
  apply processAll_calls_nil
  intro e he hs
  rcases mem_upsertAll l c.instances (c.sequence + 1) e he with hold |
    ⟨_, a, ha, _, hval⟩
  · exact absurd hs (by have := hinv e hold; omega)
  · rw [hdes, hval]
    exact applyPolicy_matched d _ _ (hall a ha)

/-- Witness for C5 at a concrete instance and a tick whose fetch already
reports the desired value. -/
theorem c5_optimistic_convergence_witness :
    ((applyPolicy (some true) (fun _ _ => true) sampleRegInstance).2.1 ≠ [] →
      (fun (_ : String) (_ : Bool) => true) sampleRegInstance.ID true = true →
      (applyPolicy (some true) (fun _ _ => true)
        sampleRegInstance).1.status.sourceDestCheck = some true) ∧
    ((fun (_ : String) (_ : Bool) => true) sampleRegInstance.ID true = false →
      (applyPolicy (some true) (fun _ _ => true) sampleRegInstance).1 =
        sampleRegInstance ∧
      ((applyPolicy (some true) (fun _ _ => true) sampleRegInstance).2.1 ≠ [] →
        CtrlError.policyError sampleRegInstance.ID ∈
          (applyPolicy (some true) (fun _ _ => true) sampleRegInstance).2.2)) ∧
    (boolValue sampleRegInstance.status.sourceDestCheck = true →
      (applyPolicy (some true) (fun _ _ => true) sampleRegInstance).2.1 = []) ∧
    (∀ (env : TickEnv) (c : ControllerState) (l : List EC2Instance),
      env.fetch = Except.ok l →
      (∀ e ∈ c.instances, e.2.sequence ≤ c.sequence) →
      c.SourceDestCheck = some true →
      (∀ a ∈ l, boolValue a.sourceDestCheck = true) →
      (runOnce env c).2.1.mutationCalls = []) :=
  c5_optimistic_convergence true (fun _ _ => true) sampleRegInstance

/-- Claim C10: when the provider-reported source-dest-check is absent (nil),
the comparison treats it as false: desired false issues no mutation, and
desired true issues one for an eligible instance. -/
theorem c10_nil_observed_as_false (cfg : String → Bool → Bool)
    (i : RegInstance) (h : i.status.sourceDestCheck = none) :
    ((applyPolicy (some false) cfg i).2.1 = []) ∧
    ((stringValue i.status.stateName = "running" ∨
      stringValue i.status.stateName = "stopping" ∨
      stringValue i.status.stateName = "stopped") →
      (applyPolicy (some true) cfg i).2.1 = [(i.ID, true)]) := by
  have hb : boolValue i.status.sourceDestCheck = false := by rw [h]; rfl
  constructor
  · exact applyPolicy_matched false cfg i hb
  · intro hs
    apply applyPolicy_calls_singleton
    rw [applyPolicy_calls_iff]
    exact ⟨hs, true, rfl, by rw [hb]; simp⟩

/-- Witness for C10 at a concrete running instance with nil observed
source-dest-check. -/
theorem c10_nil_observed_as_false_witness :
    sampleNilSdcInstance.status.sourceDestCheck = none ∧
    ((applyPolicy (some false) (fun _ _ => true) sampleNilSdcInstance).2.1 = []) ∧
    ((stringValue sampleNilSdcInstance.status.stateName = "running" ∨
      stringValue sampleNilSdcInstance.status.stateName = "stopping" ∨
      stringValue sampleNilSdcInstance.status.stateName = "stopped") →
      (applyPolicy (some true) (fun _ _ => true) sampleNilSdcInstance).2.1 =
        [(sampleNilSdcInstance.ID, true)]) :=
  ⟨rfl, c10_nil_observed_as_false (fun _ _ => true) sampleNilSdcInstance rfl⟩

/-- Claim C9: a fetched record with an empty identifier is reported as a
non-fatal malformed-record error, never enters the registry, and never
makes the tick abort with an inventory error. -/
theorem c9_malformed_record_isolated (env : TickEnv) (c : ControllerState)
    (l : List EC2Instance) (a : EC2Instance) (hf : env.fetch = Except.ok l)
    (hinv : ∀ e ∈ c.instances, e.2.sequence ≤ c.sequence)
    (ha : a ∈ l) (hid : stringValue a.instanceId = "") :
    CtrlError.malformedRecord a ∈ (runOnce env c).2.1.nonFatal ∧
    (∀ v, ("", v) ∉ (runOnce env c).1.instances) ∧
    (runOnce env c).2.2 ≠ some TickError.inventoryError := by
  obtain ⟨_, hnf, herr⟩ := runOnce_ok_proj env c l hf
  refine ⟨?_, ?_, ?_⟩
  · rw [hnf]
    exact List.mem_append_left _ (upsertAll_malformed l c.instances _ a ha hid)
  · intro v hv
    exact ((runOnce_registry_membership env c l hf hinv "").mp ⟨v, hv⟩).1 rfl
  · rcases herr with h | h <;> rw [h] <;> simp

/-- Witness for C9: one malformed record against the fresh controller. -/
theorem c9_malformed_record_isolated_witness :
    (malformedEnv.fetch = Except.ok [sampleMalformedInstance] ∧
      (∀ e ∈ sampleState.instances, e.2.sequence ≤ sampleState.sequence) ∧
      sampleMalformedInstance ∈ [sampleMalformedInstance] ∧
      stringValue sampleMalformedInstance.instanceId = "") ∧
    (CtrlError.malformedRecord sampleMalformedInstance ∈
      (runOnce malformedEnv sampleState).2.1.nonFatal ∧
    (∀ v, ("", v) ∉ (runOnce malformedEnv sampleState).1.instances) ∧
    (runOnce malformedEnv sampleState).2.2 ≠ some TickError.inventoryError) :=
  ⟨⟨rfl, by simp [sampleState], List.mem_singleton.mpr rfl, rfl⟩,
    c9_malformed_record_isolated malformedEnv sampleState
      [sampleMalformedInstance] sampleMalformedInstance rfl
      (by simp [sampleState]) (List.mem_singleton.mpr rfl) rfl⟩

/-- Claim C6, counterexample: on a failing inventory fetch the tick counter is
NOT incremented (the code fetches before incrementing), contradicting the
claimed increment-then-fetch ordering. -/
theorem c6_counterexample :
    (runOnce errEnv sampleState).2.2 = some TickError.inventoryError ∧
    (runOnce errEnv sampleState).1.sequence = 0 ∧
    ¬ (runOnce errEnv sampleState).1.sequence = sampleState.sequence + 1 :=
  ⟨rfl, rfl, by decide⟩

/-- Claim C6, amended: each tick fetches inventory first and increments the
tick counter only after a successful fetch; a failing fetch aborts the
tick with an inventory error and leaves the whole controller state
(counter, registry, DNS baseline) untouched. -/
theorem c6_fetch_error_aborts (env envOk : TickEnv) (c cOk : ControllerState)
    (l : List EC2Instance) (hf : env.fetch = Except.error ())
    (hok : envOk.fetch = Except.ok l) :
    runOnce env c =
      (c, { mutationCalls := [], nonFatal := [], dnsApplied := [] },
        some TickError.inventoryError) ∧
    (runOnce envOk cOk).1.sequence = cOk.sequence + 1 := by
  constructor
  · unfold runOnce
    rw [hf]
  · unfold runOnce
    rw [hok]
    dsimp only
    split <;> rfl

/-- Witness for the amended C6. -/
theorem c6_fetch_error_aborts_witness :
    (errEnv.fetch = Except.error () ∧
      sampleEnv.fetch = Except.ok [sampleAwsInstance]) ∧
    (runOnce errEnv sampleState =
      (sampleState, { mutationCalls := [], nonFatal := [], dnsApplied := [] },
        some TickError.inventoryError) ∧
    (runOnce sampleEnv sampleState).1.sequence = sampleState.sequence + 1) :=
  ⟨⟨rfl, rfl⟩,
    c6_fetch_error_aborts errEnv sampleEnv sampleState sampleState
      [sampleAwsInstance] rfl rfl⟩

/-! ### DNS map lemmas -/

theorem DNSEquiv_refl (m : DNSMap) : DNSEquiv m m :=
  ⟨fun _ => Iff.rfl,
    fun _ v1 v2 h1 h2 => by
      rw [h1] at h2
      exact (Option.some.inj h2) ▸ List.Perm.refl v1⟩

theorem dnsLookup_mem {m : DNSMap} {k : String} {v : List String}
    (h : dnsLookup m k = some v) : (k, v) ∈ m := by
  simp only [dnsLookup, Option.map_eq_some'] at h
  rcases h with ⟨e, he, hv⟩
  have hmem := List.mem_of_find?_eq_some he
  have hp := List.find?_some he
  have h1 : e.1 = k := by simpa using hp
  have : e = (k, v) := by cases e; simp_all
  exact this ▸ hmem

theorem dnsLookup_isSome_of_mem :
    ∀ (m : DNSMap) (k : String) (w : List String), (k, w) ∈ m →
      ∃ v, dnsLookup m k = some v
  | [], _, _, h => by simp at h
  | e :: rest, k, w, h => by
    by_cases hb : e.1 = k
    · exact ⟨e.2, by simp [dnsLookup, List.find?, hb]⟩
    · have hbf : (e.1 == k) = false := beq_eq_false_iff_ne.mpr hb
      rcases List.mem_cons.mp h with h | h
      · exact absurd (congrArg Prod.fst h.symm) hb
      · rcases dnsLookup_isSome_of_mem rest k w h with ⟨v, hv⟩
        exact ⟨v, by simpa [dnsLookup, List.find?, hbf] using hv⟩

theorem dnsLookup_eq_of_mem_nodup :
    ∀ (m : DNSMap) (k : String) (v : List String), (k, v) ∈ m →
      (m.map Prod.fst).Nodup → dnsLookup m k = some v
  | [], _, _, h, _ => by simp at h
  | e :: rest, k, v, h, hnd => by
    rcases List.mem_cons.mp h with h | h
    · rw [← h]
      simp [dnsLookup, List.find?]
    · have hk : k ∈ rest.map Prod.fst := List.mem_map.mpr ⟨(k, v), h, rfl⟩
      have hne : e.1 ≠ k := by
        intro he
        exact (List.nodup_cons.mp (by simpa using hnd)).1 (he ▸ hk)
      have hbf : (e.1 == k) = false := beq_eq_false_iff_ne.mpr hne
      have ih := dnsLookup_eq_of_mem_nodup rest k v h
        (List.nodup_cons.mp (by simpa using hnd)).2
      simpa [dnsLookup, List.find?, hbf] using ih

theorem keys_dnsAppend :
    ∀ (m : DNSMap) (k ip : String),
      (dnsAppend m k ip).map Prod.fst = m.map Prod.fst ∨
      ((dnsAppend m k ip).map Prod.fst = m.map Prod.fst ++ [k] ∧
        k ∉ m.map Prod.fst)
  | [], _, _ => Or.inr ⟨rfl, by simp⟩
  | e :: rest, k, ip => by
    by_cases hb : e.1 = k
    · have : (e.1 == k) = true := beq_iff_eq.mpr hb
      simp only [dnsAppend, this, if_true]
      exact Or.inl rfl
    · have hbf : (e.1 == k) = false := beq_eq_false_iff_ne.mpr hb
      have hstep : dnsAppend (e :: rest) k ip = e :: dnsAppend rest k ip := by
        simp [dnsAppend, hbf]
      rw [hstep, List.map_cons]
      rcases keys_dnsAppend rest k ip with h | ⟨h, hk⟩
      · rw [h]
        exact Or.inl (by rw [List.map_cons])
      · refine Or.inr ⟨by rw [h, List.map_cons]; rfl, ?_⟩
        simp only [List.map_cons, List.mem_cons]
        rintro (h' | h')
        · exact hb h'.symm
        · exact hk h'

theorem nodup_dnsAppend (m : DNSMap) (k ip : String)
    (h : (m.map Prod.fst).Nodup) :
    ((dnsAppend m k ip).map Prod.fst).Nodup := by
  rcases keys_dnsAppend m k ip with he | ⟨he, hk⟩
  · rw [he]; exact h
  · rw [he]
    exact List.nodup_append.mpr ⟨h, List.nodup_singleton k,
      fun a ha hb => hk ((List.mem_singleton.mp hb) ▸ ha)⟩

theorem deriveDNSStep_keys_nodup (m : DNSMap) (i : RegInstance)
    (h : (m.map Prod.fst).Nodup) :
    ((deriveDNSStep m i).map Prod.fst).Nodup := by
  unfold deriveDNSStep
  dsimp only
  split_ifs <;>
    first
      | exact h
      | exact nodup_dnsAppend _ _ _ h
      | exact nodup_dnsAppend _ _ _ (nodup_dnsAppend _ _ _ h)

theorem deriveDNS_foldl_keys_nodup :
    ∀ (insts : Registry) (m : DNSMap), (m.map Prod.fst).Nodup →
      ((insts.foldl (fun m e => deriveDNSStep m e.2) m).map Prod.fst).Nodup
  | [], _, h => h
  | e :: rest, m, h =>
    deriveDNS_foldl_keys_nodup rest _ (deriveDNSStep_keys_nodup m e.2 h)

theorem deriveDNS_keys_nodup (insts : Registry) :
    ((deriveDNS insts).map Prod.fst).Nodup :=
  deriveDNS_foldl_keys_nodup insts [] (by simp)

theorem dnsLookup_sortedDNS :
    ∀ (m : DNSMap) (k : String),
      dnsLookup (sortedDNS m) k = (dnsLookup m k).map sortStrings
  | [], _ => rfl
  | e :: rest, k => by
    by_cases hb : e.1 = k
    · have : (e.1 == k) = true := beq_iff_eq.mpr hb
      simp [sortedDNS, dnsLookup, List.find?, this]
    · have hbf : (e.1 == k) = false := beq_eq_false_iff_ne.mpr hb
      have ih := dnsLookup_sortedDNS rest k
      simpa [sortedDNS, dnsLookup, List.find?, hbf] using ih

theorem StringSlicesEqual_iff (l : List String) : ∀ r : List String,
    StringSlicesEqual l r = true ↔ l = r := by
  induction l with
  | nil =>
    intro r
    cases r <;> simp [StringSlicesEqual]
  | cons a as ih =>
    intro r
    cases r with
    | nil => simp [StringSlicesEqual]
    | cons b bs =>
      by_cases hl : as.length = bs.length
      · have hcond : ¬ (((a :: as).length != (b :: bs).length) = true) := by
          simp [hl]
        have hcond2 : ¬ ((as.length != bs.length) = true) := by simp [hl]
        have e1 : StringSlicesEqual (a :: as) (b :: bs) =
            ((a, b) :: as.zip bs).all (fun p => p.1 == p.2) := by
          unfold StringSlicesEqual
          rw [if_neg hcond]
          rfl
        have e2 : StringSlicesEqual as bs =
            (as.zip bs).all (fun p => p.1 == p.2) := by
          unfold StringSlicesEqual
          rw [if_neg hcond2]
        rw [e1]
        simp only [List.all_cons, Bool.and_eq_true, beq_iff_eq]
        rw [List.cons_eq_cons]
        apply and_congr Iff.rfl
        rw [← e2]
        exact ih bs
      · have hcond : (((a :: as).length != (b :: bs).length) = true) := by
          simp [hl]
        have e1 : StringSlicesEqual (a :: as) (b :: bs) = false := by
          unfold StringSlicesEqual
          rw [if_pos hcond]
        rw [e1]
        simp only [Bool.false_eq_true, false_iff]
        intro h
        cases h
        exact hl rfl

theorem dnsChanges_eq_nil (base m : DNSMap)
    (h : ∀ e ∈ m, (dnsLookup base e.1).getD [] = sortStrings e.2) :
    dnsChanges base m = [] := by
  unfold dnsChanges
  rw [List.filter_eq_nil_iff]
  intro e he
  rcases List.mem_map.mp he with ⟨f, hf, rfl⟩
  simp [StringSlicesEqual_iff, h f hf]

theorem mem_dnsChanges {base m : DNSMap} {e : String × List String}
    (h : e ∈ dnsChanges base m) :
    ∃ f ∈ m, e = (f.1, sortStrings f.2) ∧
      (dnsLookup base f.1).getD [] ≠ sortStrings f.2 := by
  unfold dnsChanges at h
  rcases List.mem_filter.mp h with ⟨hmem, hp⟩
  rcases List.mem_map.mp hmem with ⟨f, hf, rfl⟩
  refine ⟨f, hf, rfl, ?_⟩
  have hfeq : StringSlicesEqual ((dnsLookup base f.1).getD [])
      (sortStrings f.2) = false := by simpa using hp
  intro he
  rw [← StringSlicesEqual_iff] at he
  rw [he] at hfeq
  cases hfeq

theorem configureDNS_some_eq (ok : Bool) (b : DNSMap) (insts : Registry) :
    configureDNS ok (some b) insts =
      (if (dnsChanges b (deriveDNS insts)).isEmpty then (some b, none, none)
      else if ok then
        (some (sortedDNS (deriveDNS insts)),
          some (dnsChanges b (deriveDNS insts)), none)
      else
        (some b, some (dnsChanges b (deriveDNS insts)),
          some TickError.dnsApplyError)) := rfl

theorem configureDNS_none_eq (ok : Bool) (insts : Registry) :
    configureDNS ok none insts =
      (if (deriveDNS insts).isEmpty then (some (deriveDNS insts), none, none)
      else if ok then
        (some (deriveDNS insts), some (deriveDNS insts), none)
      else
        (none, some (deriveDNS insts), some TickError.dnsApplyError)) := rfl

/-- When every derived entry already matches the baseline, the diff is
empty: no apply call, the baseline untouched, no error. -/
theorem configureDNS_no_change (ok : Bool) (b : DNSMap) (insts : Registry)
    (h : ∀ e ∈ deriveDNS insts,
      (dnsLookup b e.1).getD [] = sortStrings e.2) :
    configureDNS ok (some b) insts = (some b, none, none) := by
  rw [configureDNS_some_eq, dnsChanges_eq_nil b (deriveDNS insts) h]
  rfl

/-- An equivalent snapshot binds, per entry of the second map, a permuted
address list in the first map. -/
theorem dnsEquiv_entry (m1 m2 : DNSMap) (h : DNSEquiv m1 m2)
    (hnd2 : (m2.map Prod.fst).Nodup) (e : String × List String)
    (he : e ∈ m2) :
    ∃ v1, dnsLookup m1 e.1 = some v1 ∧ v1.Perm e.2 := by
  have hlk2 : dnsLookup m2 e.1 = some e.2 :=
    dnsLookup_eq_of_mem_nodup m2 e.1 e.2 (Prod.mk.eta ▸ he) hnd2
  cases hm1 : dnsLookup m1 e.1 with
  | none =>
    rw [(h.1 e.1).mp hm1] at hlk2
    cases hlk2
  | some v1 => exact ⟨v1, rfl, h.2 e.1 v1 e.2 hm1 hlk2⟩

/-- When the computed change set is empty, every derived entry matches the
baseline (after canonical sorting). -/
theorem dnsChanges_nil_entry {base m : DNSMap}
    (h : dnsChanges base m = []) {k : String} {v : List String}
    (hmem : (k, v) ∈ m) :
    (dnsLookup base k).getD [] = sortStrings v := by
  unfold dnsChanges at h
  have hx := List.filter_eq_nil_iff.mp h (k, sortStrings v)
    (List.mem_map.mpr ⟨(k, v), hmem, rfl⟩)
  dsimp only at hx
  rw [← StringSlicesEqual_iff]
  by_cases hSSE : StringSlicesEqual ((dnsLookup base k).getD [])
      (sortStrings v) = true
  · exact hSSE
  · rw [Bool.not_eq_true] at hSSE
    exact absurd (by rw [hSSE]; rfl) hx

/-- Claim C3: after one configureDNS pass whose apply (if any) succeeded, a
second pass over an unchanged underlying snapshot (same names, same
address sets up to order) computes an empty change set: it makes no apply
call, leaves the baseline as is, and returns no error. -/
theorem c3_diff_idempotent (insts1 insts2 : Registry) (b : DNSMap)
    (ok2 : Bool)
    (hequiv : DNSEquiv (deriveDNS insts1) (deriveDNS insts2)) :
    configureDNS ok2 (configureDNS true (some b) insts1).1 insts2 =
      ((configureDNS true (some b) insts1).1, none, none) := by
  by_cases h1 : (dnsChanges b (deriveDNS insts1)).isEmpty = true
  · have hb1 : (configureDNS true (some b) insts1).1 = some b := by
      rw [configureDNS_some_eq, if_pos h1]
    rw [hb1]
    apply configureDNS_no_change
    intro e he
    rcases dnsEquiv_entry (deriveDNS insts1) (deriveDNS insts2) hequiv
      (deriveDNS_keys_nodup insts2) e he with ⟨v1, hv1, hperm⟩
    have hbase := dnsChanges_nil_entry (List.isEmpty_iff.mp h1)
      (dnsLookup_mem hv1)
    exact hbase.trans (sortStrings_eq_of_perm hperm)
  · have hb1 : (configureDNS true (some b) insts1).1 =
        some (sortedDNS (deriveDNS insts1)) := by
      rw [configureDNS_some_eq, if_neg h1, if_pos rfl]
    rw [hb1]
    apply configureDNS_no_change
    intro e he
    rcases dnsEquiv_entry (deriveDNS insts1) (deriveDNS insts2) hequiv
      (deriveDNS_keys_nodup insts2) e he with ⟨v1, hv1, hperm⟩
    rw [dnsLookup_sortedDNS, hv1]
    exact sortStrings_eq_of_perm hperm

/-- Witness for C3: a fresh empty baseline, one apply, then an identical
second derivation. -/
theorem c3_diff_idempotent_witness :
    DNSEquiv (deriveDNS sampleRegistry2) (deriveDNS sampleRegistry2) ∧
    configureDNS true (configureDNS true (some []) sampleRegistry2).1
        sampleRegistry2 =
      ((configureDNS true (some []) sampleRegistry2).1, none, none) :=
  ⟨DNSEquiv_refl _,
    c3_diff_idempotent sampleRegistry2 sampleRegistry2 [] true
      (DNSEquiv_refl _)⟩

/-- Claim C7: the diff's address-set comparison is order-insensitive: a name
whose newly derived address list is a permutation of its (sorted, as every
applied baseline value is) last-applied list produces no change entry. -/
theorem c7_order_insensitive (b : DNSMap) (insts : Registry) (k : String)
    (lastV v : List String) (hlast : dnsLookup b k = some lastV)
    (hsorted : List.Sorted (fun a b => strLe a b = true) lastV)
    (hv : dnsLookup (deriveDNS insts) k = some v) (hperm : v.Perm lastV) :
    ∀ w, (k, w) ∉ dnsChanges b (deriveDNS insts) := by
  intro w hw
  rcases mem_dnsChanges hw with ⟨f, hf, hfe, hne⟩
  rcases Prod.mk.injEq .. ▸ hfe with ⟨hk, _⟩
  have hlkf : dnsLookup (deriveDNS insts) f.1 = some f.2 :=
    dnsLookup_eq_of_mem_nodup _ f.1 f.2 (Prod.mk.eta ▸ hf)
      (deriveDNS_keys_nodup insts)
  rw [← hk, hv] at hlkf
  have hvf : v = f.2 := Option.some.inj hlkf
  apply hne
  rw [← hk, hlast, ← hvf]
  calc (some lastV).getD [] = lastV := rfl
    _ = sortStrings lastV := (sortStrings_eq_self_of_sorted hsorted).symm
    _ = sortStrings v := (sortStrings_eq_of_perm hperm).symm

/-- Witness for C7: the derived snapshot lists the two addresses of
foo.example.com in the opposite order from the sorted baseline. -/
theorem c7_order_insensitive_witness :
    (dnsLookup sampleBaseline "foo.example.com" =
        some ["10.0.0.5", "10.0.0.9"] ∧
      List.Sorted (fun a b => strLe a b = true) ["10.0.0.5", "10.0.0.9"] ∧
      dnsLookup (deriveDNS sampleRegistry2) "foo.example.com" =
        some ["10.0.0.9", "10.0.0.5"] ∧
      (["10.0.0.9", "10.0.0.5"] : List String).Perm
        ["10.0.0.5", "10.0.0.9"]) ∧
    (∀ w, ("foo.example.com", w) ∉
      dnsChanges sampleBaseline (deriveDNS sampleRegistry2)) :=
  ⟨⟨by decide, by decide, by decide, by decide⟩,
    c7_order_insensitive sampleBaseline sampleRegistry2 "foo.example.com"
      ["10.0.0.5", "10.0.0.9"] ["10.0.0.9", "10.0.0.5"]
      (by decide) (by decide) (by decide) (by decide)⟩

/-- Claim C8: every apply call carries exactly the computed change set, and
every name in it is a key of the newly derived snapshot; names only in
the old baseline are never passed to the applier. -/
theorem c8_apply_carries_change_set (ok : Bool) (baseline : Option DNSMap)
    (insts : Registry) (A : DNSMap)
    (h : (configureDNS ok baseline insts).2.1 = some A) :
    (∀ bs, baseline = some bs → A = dnsChanges bs (deriveDNS insts)) ∧
    (∀ e ∈ A, ∃ v, dnsLookup (deriveDNS insts) e.1 = some v) := by
  cases baseline with
  | none =>
    rw [configureDNS_none_eq] at h
    by_cases he : (deriveDNS insts).isEmpty = true
    · rw [if_pos he] at h
      simp at h
    · rw [if_neg he] at h
      have hA : A = deriveDNS insts := by
        by_cases hok : ok = true
        · rw [if_pos hok] at h
          exact (Option.some.inj h).symm
        · rw [if_neg hok] at h
          exact (Option.some.inj h).symm
      constructor
      · intro bs hb
        simp at hb
      · intro e he'
        rw [hA] at he'
        exact dnsLookup_isSome_of_mem _ e.1 e.2 (Prod.mk.eta ▸ he')
  | some base =>
    rw [configureDNS_some_eq] at h
    by_cases hemp : (dnsChanges base (deriveDNS insts)).isEmpty = true
    · rw [if_pos hemp] at h
      simp at h
    · rw [if_neg hemp] at h
      have hA : A = dnsChanges base (deriveDNS insts) := by
        by_cases hok : ok = true
        · rw [if_pos hok] at h
          exact (Option.some.inj h).symm
        · rw [if_neg hok] at h
          exact (Option.some.inj h).symm
      refine ⟨fun bs hb => ?_, fun e he' => ?_⟩
      · cases Option.some.inj hb
        exact hA
      · rw [hA] at he'
        rcases mem_dnsChanges he' with ⟨f, hf, hfe, _⟩
        rw [hfe]
        exact dnsLookup_isSome_of_mem _ f.1 f.2 (Prod.mk.eta ▸ hf)

/-- Witness for C8: against an empty baseline the first apply carries the
full (sorted) derived snapshot, whose only name is the derived key. -/
theorem c8_apply_carries_change_set_witness :
    ((configureDNS true (some []) sampleRegistry2).2.1 =
      some [("foo.example.com", ["10.0.0.5", "10.0.0.9"])]) ∧
    ((∀ bs, (some ([] : DNSMap)) = some bs →
      [("foo.example.com", ["10.0.0.5", "10.0.0.9"])] =
        dnsChanges bs (deriveDNS sampleRegistry2)) ∧
    (∀ e ∈ [("foo.example.com", ["10.0.0.5", "10.0.0.9"])],
      ∃ v, dnsLookup (deriveDNS sampleRegistry2) e.1 = some v)) :=
  ⟨by decide,
    c8_apply_carries_change_set true (some []) sampleRegistry2
      [("foo.example.com", ["10.0.0.5", "10.0.0.9"])] (by decide)⟩

/-- Witness for C1: one running instance fetched into the fresh
controller. -/
theorem c1_registry_reflects_fetch_witness :
    (sampleEnv.fetch = Except.ok [sampleAwsInstance] ∧
      (∀ e ∈ sampleState.instances, e.2.sequence ≤ sampleState.sequence)) ∧
    ((∀ id, (∃ v, (id, v) ∈ (runOnce sampleEnv sampleState).1.instances) ↔
      (id ≠ "" ∧ ∃ a ∈ [sampleAwsInstance], stringValue a.instanceId = id)) ∧
    (∀ e ∈ (runOnce sampleEnv sampleState).1.instances,
      e.2.sequence = sampleState.sequence + 1) ∧
    (runOnce sampleEnv sampleState).1.sequence = sampleState.sequence + 1) :=
  ⟨⟨rfl, by simp [sampleState]⟩,
    c1_registry_reflects_fetch sampleEnv sampleState [sampleAwsInstance]
      rfl (by simp [sampleState])⟩

end AwsController
